import Mathlib

/-!
Verification of the release-packaging script `makedist.py` (Lectrote).

The script is embedded shallowly: every function below mirrors a Python
function or module-level block of `makedist.py`; external effects
(subprocess calls, file copies, directory creation) are reified as explicit
action values or as transformations of an explicit file-system state, and
raised exceptions become `Except.error`.
-/

namespace Makedist

/-! ## Character-list string primitives

Python string operations used by the script (`in`, `startswith`, slicing,
`str.replace`, `os.path.split`) are modelled on the underlying character
lists of Lean strings. -/

/-- `isPrefixCL p s`: the char list `p` is a prefix of `s`
(Python `s.startswith(p)`, on char lists). -/
def isPrefixCL : List Char → List Char → Bool
  | [], _ => true
  | _ :: _, [] => false
  | a :: as, b :: bs => a == b && isPrefixCL as bs

/-- `hasSubCL n s`: the char list `n` occurs contiguously inside `s`
(Python `n in s`, on char lists). -/
def hasSubCL (n : List Char) : List Char → Bool
  | [] => isPrefixCL n []
  | c :: cs => isPrefixCL n (c :: cs) || hasSubCL n cs

/-- Scanner for `replaceCL`: `skip` counts characters still to be consumed
by an occurrence that has already been replaced (structural recursion on
the scanned list, so that concrete runs reduce definitionally). -/
def replaceSk (old new : List Char) : List Char → Nat → List Char
  | [], _ => []
  | _ :: cs, skip + 1 => replaceSk old new cs skip
  | c :: cs, 0 =>
    if isPrefixCL old (c :: cs) then new ++ replaceSk old new cs (old.length - 1)
    else c :: replaceSk old new cs 0

/-- Replace every non-overlapping occurrence of `old` by `new`, scanning
left to right (Python `s.replace(old, new)`).  Every call site passes a
nonempty `old`; Python's behaviour for an empty pattern is not needed. -/
def replaceCL (old new s : List Char) : List Char :=
  if old = [] then s else replaceSk old new s 0

/-- Python `a in b` on strings. -/
def strIn (n s : String) : Bool := hasSubCL n.data s.data

/-- Python `s.startswith(p)`. -/
def strStarts (s p : String) : Bool := isPrefixCL p.data s.data

/-- Python `len(s)`. -/
def strLen (s : String) : Nat := s.data.length

/-- Python `s[n:]`. -/
def strDrop (s : String) (n : Nat) : String := ⟨s.data.drop n⟩

/-- Python `s.replace(old, new)`. -/
def strReplace (s old new : String) : String := ⟨replaceCL old.data new.data s.data⟩

/-- The tail component of Python `os.path.split(s)`: everything after the
last `/`. -/
def pathTail (s : String) : String :=
  ⟨(s.data.reverse.takeWhile (fun c => c ≠ '/')).reverse⟩

/-- The head component of Python `os.path.split(s)` (trailing slashes
stripped); used only on simple relative paths such as `dist/Name`. -/
def pathHead (s : String) : String :=
  ⟨(((s.data.reverse.dropWhile (fun c => c ≠ '/')).dropWhile (fun c => c = '/')).reverse)⟩

/-- Python `os.path.join(a, b)` for the shapes the script uses
(`a` nonempty and relative, `b` relative). -/
def pathJoin (a b : String) : String := a ++ "/" ++ b

/-! ## Static data of the script -/

/-- `all_packages` (makedist.py lines 17-23). -/
def all_packages : List String :=
  ["darwin-x64", "linux-ia32", "linux-x64", "win32-ia32", "win32-x64"]

/-- `rootfiles` (makedist.py lines 60-63). -/
def rootfiles : List String := ["./LICENSE", "./LICENSES-FONTS.txt"]

/-- `files` (makedist.py lines 40-58): the staging manifest; `./font` is the
one directory entry ("all files"). -/
def files : List String :=
  ["./package.json", "./main.js", "./apphooks.js", "./play.html",
   "./prefs.html", "./prefs.js", "./about.html", "./if-card.html",
   "./fonts.css", "./el-glkote.css", "./icon-128.png", "./docicon.ico",
   "./quixe/lib/elkote.min.js", "./quixe/lib/jquery-1.11.2.min.js",
   "./quixe/lib/quixe.min.js", "./quixe/media/waiting.gif", "./font"]

/-! ## makezip (makedist.py lines 95-117)

The function either raises (`Except.error`) or settles on one of three
branches, each of which shells out exactly one command string; the branch
taken, the computed archive base name, and the exact shell command are
returned. -/

inductive ZipMode where
  | dmg | unwrapped | wrapped
deriving DecidableEq, Repr

structure MakezipResult where
  zipfile : String
  mode : ZipMode
  cmd : String
deriving DecidableEq, Repr

def makezip (product_name product_version dir : String) (unwrapped : Bool) :
    Except String MakezipResult :=
  let pfx := product_name ++ "-"
  let val := pathTail dir
  if ¬ strStarts val pfx then
    .error "path does not have the prefix"
  else
    let zipfile := product_name ++ "-" ++ product_version ++ "-" ++ strDrop val (strLen pfx)
    if strIn "darwin" zipfile then
      let zipfile := strReplace zipfile "darwin" "macos"
      .ok { zipfile := zipfile, mode := .dmg,
            cmd := "rm -f dist/" ++ zipfile ++ ".dmg; node_modules/.bin/appdmg resources/pack-dmg-spec.json dist/" ++ zipfile ++ ".dmg" }
    else if unwrapped then
      .ok { zipfile := zipfile, mode := .unwrapped,
            cmd := "cd " ++ dir ++ "; rm -f ../" ++ zipfile ++ ".zip; zip -q -r ../" ++ zipfile ++ ".zip *" }
    else
      .ok { zipfile := zipfile, mode := .wrapped,
            cmd := "cd " ++ pathHead dir ++ "; rm -f " ++ zipfile ++ ".zip; zip -q -r " ++ zipfile ++ ".zip " ++ pathTail dir }

/-! ## Package selection (makedist.py lines 132-139)

The Python loop walks `all_packages` in order and appends a package the
first time some argument occurs in it (the inner loop `break`s after the
first match), which on lists is `filter` with an `any` predicate. -/

def selectPackages (args : List String) : List String :=
  if args = [] then all_packages
  else all_packages.filter (fun pack => args.any (fun arg => strIn arg pack))

/-! ## Option flags and phase dispatch (makedist.py lines 25-37, 150-160) -/

/-- The three `optparse` mode flags (`--build` alias `-b`, `--zip` alias
`-z`, `--none` alias `-n`); each defaults to false. -/
structure Opts where
  makedist : Bool
  makezip : Bool
  makenothing : Bool
deriving DecidableEq, Repr

/-- `doall` (makedist.py line 150). -/
def doall (opts : Opts) : Bool :=
  ! (opts.makedist || opts.makezip || opts.makenothing)

/-- The externally visible steps of the module-level driver, in program
order. -/
inductive Act where
  | mkdir (path : String)
  | stageInstall (dest : String)
  | build (dest pack : String)
  | archive (dest pack : String) (unwrapped : Bool)
deriving DecidableEq, Repr

/-- The two conditional phase loops (makedist.py lines 152-160): each
selected package gets a `builddir` call when building is on, then a
`makezip` call (with `unwrapped = ('win32' in pack)`) when zipping is on. -/
def dispatch (opts : Opts) (product_name : String) (packages : List String) :
    List Act :=
  (if doall opts || opts.makedist then
    packages.map (fun pack => Act.build ("dist/" ++ product_name ++ "-" ++ pack) pack)
   else [])
  ++
  (if doall opts || opts.makezip then
    packages.map (fun pack =>
      Act.archive ("dist/" ++ product_name ++ "-" ++ pack) pack (strIn "win32" pack))
   else [])

/-! ## Manifest reading (makedist.py lines 121-127)

`package.json` is taken already parsed, as an association list of string
keys to string values; `pkg['k']` raises `KeyError` when `k` is absent. -/

def dictGet (pkg : List (String × String)) (key : String) : Except String String :=
  match pkg.lookup key with
  | some v => .ok v
  | none => .error ("KeyError: " ++ key)

/-- Lines 125-126: `product_version = pkg['version']`,
`product_name = pkg['productName']`.  No emptiness check is performed. -/
def readMeta (pkg : List (String × String)) : Except String (String × String) := do
  let product_version ← dictGet pkg "version"
  let product_name ← dictGet pkg "productName"
  .ok (product_name, product_version)

/-! ## builddir (makedist.py lines 87-93)

The subprocess call and the root-file copies are reified as actions; the
final `os.unlink(os.path.join(dir, 'version'))` follows Python semantics:
`os.unlink` raises `FileNotFoundError` when the file is absent.  The
presence of `dir/version` after the bundler run is an explicit input. -/

inductive BDAct where
  | runCmd (cmd : String)
  | copyRoot (src dst : String)
  | unlinkFile (path : String)
deriving DecidableEq, Repr

/-- `os.unlink(path)`: deletes when present, raises when absent. -/
def osUnlink (present : Bool) (path : String) : Except String (List BDAct) :=
  if present then .ok [.unlinkFile path]
  else .error ("FileNotFoundError: " ++ path)

def builddir (dir pack : String) (versionFilePresent : Bool) :
    Except String (List BDAct) := do
  let bundleActs := [BDAct.runCmd ("npm run package-" ++ pack)]
  let copyActs := rootfiles.map (fun f => BDAct.copyRoot f (pathJoin dir f))
  let unlinkActs ← osUnlink versionFilePresent (pathJoin dir "version")
  .ok (bundleActs ++ copyActs ++ unlinkActs)

/-! ## Module-level driver (makedist.py lines 121-160)

The driver is modelled up to the granularity of `Act`: manifest reading and
package selection run first; any raise stops the run with no action
performed; otherwise staging always runs, then the two phase loops. -/

def mainRun (pkg : List (String × String)) (opts : Opts) (args : List String) :
    List Act × Option String :=
  match readMeta pkg with
  | .error e => ([], some e)
  | .ok (product_name, _product_version) =>
    let packages := selectPackages args
    if packages = [] then ([], some "no packages selected")
    else
      ([Act.mkdir "tempapp", Act.stageInstall "tempapp", Act.mkdir "dist"]
        ++ dispatch opts product_name packages, none)

/-! ## install (makedist.py lines 65-84)

The destination file system is a flat map from path to file content plus a
flat set of created directories.  The source tree (the working directory
the script copies from) is a separate read-only structure: `install` only
reads source paths (the `files` manifest) and only writes under
`resourcedir`.  `shutil.copyfile` is assumed to find its source (the
manifest files exist in the repository); `os.makedirs(..., exist_ok=True)`
never raises. -/

structure FS where
  fileContent : String → Option String
  dirs : String → Bool

structure SrcTree where
  isDir : String → Bool
  content : String → String
  listdir : String → List String

/-- `shutil.copyfile(src, dst)` into the destination tree: overwrite `dst`
with the source file's bytes. -/
def fsWrite (dst : String) (c : String) (fs : FS) : FS :=
  { fs with fileContent := fun p => if p = dst then some c else fs.fileContent p }

/-- `os.makedirs(d, exist_ok=True)` on the destination tree (directories
are tracked as a flat set of created paths). -/
def fsMkdir (d : String) (fs : FS) : FS :=
  { fs with dirs := fun p => p = d || fs.dirs p }

/-- One iteration of the `for filename in files` loop (lines 77-84): a
plain file is copied to the same relative path under `appdir`; a directory
entry gets a same-named subdirectory and every direct child copied in. -/
def installEntry (src : SrcTree) (appdir f : String) (fs : FS) : FS :=
  if ¬ src.isDir f then
    fsWrite (pathJoin appdir f) (src.content f) fs
  else
    let subdirname := pathJoin appdir f
    (src.listdir f).foldl
      (fun acc sub => fsWrite (pathJoin subdirname sub) (src.content (pathJoin f sub)) acc)
      (fsMkdir subdirname fs)

/-- The whole loop over the staging manifest. -/
def installFiles (src : SrcTree) (appdir : String) (l : List String) (fs : FS) : FS :=
  match l with
  | [] => fs
  | f :: rest => installFiles src appdir rest (installEntry src appdir f fs)

/-- `install(resourcedir)` (lines 65-84): raises when `resourcedir` is not
an existing directory, otherwise creates the fixed subdirectory skeleton
and copies the manifest. -/
def install (src : SrcTree) (resourcedir : String) (fs : FS) : Except String FS :=
  if ¬ fs.dirs resourcedir then
    .error ("path does not exist: " ++ resourcedir)
  else
    let appdir := resourcedir
    let fs := fsMkdir appdir fs
    let qdir := pathJoin appdir "quixe"
    let fs := fsMkdir qdir fs
    let fs := fsMkdir (pathJoin qdir "lib") fs
    let fs := fsMkdir (pathJoin qdir "media") fs
    .ok (installFiles src appdir files fs)

/-! ## Observation helpers and proof infrastructure -/

/-- The branch `makezip` settled on, when it did not raise. -/
def mzMode : Except String MakezipResult → Option ZipMode
  | .ok r => some r.mode
  | .error _ => none

/-- The archive base name `makezip` computed, when it did not raise. -/
def mzName : Except String MakezipResult → Option String
  | .ok r => some r.zipfile
  | .error _ => none

/-- The value a sequence of overwrites (`fsWrite`) leaves at path `p`,
starting from `v`; the writes are listed in application order. -/
def applyWrites (ws : List (String × String)) (p : String) (v : Option String) : Option String :=
  ws.foldl (fun acc w => if p = w.1 then some w.2 else acc) v

/-- The flag a sequence of `fsMkdir`s leaves at path `p`, starting from
`b`; the directories are listed in application order. -/
def applyDirs (ds : List String) (p : String) (b : Bool) : Bool :=
  ds.foldl (fun acc d => (p = d) || acc) b

/-- The overwrites one manifest entry performs, in order. -/
def entryWrites (src : SrcTree) (appdir f : String) : List (String × String) :=
  if ¬ src.isDir f then [(pathJoin appdir f, src.content f)]
  else (src.listdir f).map
    (fun sub => (pathJoin (pathJoin appdir f) sub, src.content (pathJoin f sub)))

/-- The directory creations one manifest entry performs. -/
def entryDirs (src : SrcTree) (appdir f : String) : List String :=
  if ¬ src.isDir f then [] else [pathJoin appdir f]

/-- All overwrites the manifest loop performs, in order. -/
def manifestWrites (src : SrcTree) (appdir : String) (l : List String) : List (String × String) :=
  (l.map (entryWrites src appdir)).flatten

/-- All directory creations the manifest loop performs, in order. -/
def manifestDirs (src : SrcTree) (appdir : String) (l : List String) : List String :=
  (l.map (entryDirs src appdir)).flatten

/-- All directory creations `install` performs, in order: the fixed
skeleton followed by the manifest loop's. -/
def installDirs (src : SrcTree) (rd : String) : List String :=
  [rd, pathJoin rd "quixe", pathJoin (pathJoin rd "quixe") "lib",
   pathJoin (pathJoin rd "quixe") "media"] ++ manifestDirs src rd files

/-- A small concrete source tree used to exercise `install`. -/
def srcSample : SrcTree :=
  { isDir := fun p => p = "./font"
    content := fun p => "contents:" ++ p
    listdir := fun p => if p = "./font" then ["a.ttf", "b.ttf"] else [] }

/-- A destination file system holding only the empty directory `tempapp`. -/
def fsSample : FS :=
  { fileContent := fun _ => none
    dirs := fun p => p = "tempapp" }

/-! ## Lemmas about the string primitives -/

theorem isPrefixCL_iff (p s : List Char) :
    isPrefixCL p s = true ↔ ∃ t, s = p ++ t := by
  induction p generalizing s with
  | nil => simp [isPrefixCL]
  | cons a as ih =>
    cases s with
    | nil => simp [isPrefixCL]
    | cons b bs =>
      simp only [isPrefixCL, Bool.and_eq_true, beq_iff_eq, ih, List.cons_append,
        List.cons.injEq]
      constructor
      · rintro ⟨hab, t, ht⟩
        exact ⟨t, hab.symm, ht⟩
      · rintro ⟨t, hab, ht⟩
        exact ⟨hab.symm, t, ht⟩

theorem isPrefixCL_self_append (p t : List Char) : isPrefixCL p (p ++ t) = true :=
  (isPrefixCL_iff p (p ++ t)).mpr ⟨t, rfl⟩

theorem strStarts_append (p t : String) : strStarts (p ++ t) p = true := by
  unfold strStarts
  rw [String.data_append]
  exact isPrefixCL_self_append _ _

theorem strDrop_append (p t : String) : strDrop (p ++ t) (strLen p) = t := by
  unfold strDrop strLen
  rw [String.data_append, List.drop_left]

theorem hasSubCL_append_right (n a b : List Char) (h : hasSubCL n b = true) :
    hasSubCL n (a ++ b) = true := by
  induction a with
  | nil => simpa using h
  | cons c cs ih =>
    simp only [List.cons_append, hasSubCL, Bool.or_eq_true]
    exact Or.inr ih

theorem isPrefixCL_append_sep (old a b : List Char) (sep : Char)
    (h : isPrefixCL old (a ++ sep :: b) = true) :
    isPrefixCL old a = true ∨ sep ∈ old := by
  induction old generalizing a with
  | nil => exact Or.inl rfl
  | cons o os ih =>
    cases a with
    | nil =>
      right
      rw [List.nil_append] at h
      simp only [isPrefixCL, Bool.and_eq_true, beq_iff_eq] at h
      rw [h.1]
      exact List.mem_cons_self _ _
    | cons x xs =>
      rw [List.cons_append] at h
      simp only [isPrefixCL, Bool.and_eq_true, beq_iff_eq] at h ⊢
      rcases ih xs h.2 with h' | h'
      · exact Or.inl ⟨h.1, h'⟩
      · exact Or.inr (List.mem_cons_of_mem _ h')

theorem replaceSk_skip (old new cs : List Char) (k : Nat) :
    replaceSk old new cs k = replaceSk old new (cs.drop k) 0 := by
  induction cs generalizing k with
  | nil => cases k <;> rfl
  | cons c cs ih =>
    cases k with
    | zero => rfl
    | succ k => simpa using ih k

theorem replaceCL_nil (old new : List Char) : replaceCL old new [] = [] := by
  unfold replaceCL
  split <;> rfl

theorem replaceCL_cons (old new : List Char) (h : old ≠ []) (c : Char) (cs : List Char) :
    replaceCL old new (c :: cs) =
      if isPrefixCL old (c :: cs) then new ++ replaceCL old new ((c :: cs).drop old.length)
      else c :: replaceCL old new cs := by
  have hl : old.length - 1 + 1 = old.length :=
    Nat.succ_pred_eq_of_pos (List.length_pos.mpr h)
  simp only [replaceCL, if_neg h]
  show replaceSk old new (c :: cs) 0 = _
  rw [replaceSk]
  split
  · rw [replaceSk_skip, ← hl, List.drop_succ_cons]
    simp
  · rfl

theorem replaceCL_not_hasSub (old new s : List Char) (hne : old ≠ [])
    (h : hasSubCL old s = false) : replaceCL old new s = s := by
  induction s with
  | nil => exact replaceCL_nil old new
  | cons c cs ih =>
    have h' : isPrefixCL old (c :: cs) = false ∧ hasSubCL old cs = false := by
      simpa [hasSubCL] using h
    rw [replaceCL_cons old new hne]
    simp [h'.1, ih h'.2]

theorem replaceCL_append_sep (old new a b : List Char) (sep : Char)
    (hne : old ≠ []) (hsep : sep ∉ old) (ha : hasSubCL old a = false) :
    replaceCL old new (a ++ sep :: b) = a ++ sep :: replaceCL old new b := by
  induction a with
  | nil =>
    rw [List.nil_append, replaceCL_cons old new hne]
    have hp : ¬ isPrefixCL old (sep :: b) = true := by
      intro hc
      rcases isPrefixCL_append_sep old [] b sep hc with h' | h'
      · cases old with
        | nil => exact hne rfl
        | cons o os => simp [isPrefixCL] at h'
      · exact hsep h'
    rw [if_neg hp, List.nil_append]
  | cons c cs ih =>
    have h1 : isPrefixCL old (c :: cs) = false ∧ hasSubCL old cs = false := by
      simpa [hasSubCL] using ha
    rw [List.cons_append, replaceCL_cons old new hne]
    have hp : ¬ isPrefixCL old (c :: (cs ++ sep :: b)) = true := by
      intro hc
      rcases isPrefixCL_append_sep old (c :: cs) b sep hc with h' | h'
      · rw [h1.1] at h'
        exact Bool.false_ne_true h'
      · exact hsep h'
    rw [if_neg hp, ih h1.2, List.cons_append]

theorem strReplace_id (s old new : String) (hne : old.data ≠ [])
    (h : strIn old s = false) : strReplace s old new = s := by
  unfold strReplace
  unfold strIn at h
  rw [replaceCL_not_hasSub _ _ _ hne h]

/-! ## Claims about the Archiver (`makezip`) -/

/-- C1: for product name "Foo", version "2.1" and bundle directory
`dist/Foo-darwin-x64` the Archiver computes the archive name
"Foo-2.1-macos-x64", takes the disk-image path and the artifact carries the
`.dmg` extension; for `dist/Foo-win32-ia32` it computes
"Foo-2.1-win32-ia32" with the `.zip` extension, and the archive loop
invokes it with `unwrapped = true` because `'win32' in pack` holds.  The
`unwrapped` argument passed here is the loop's expression
`strIn "win32" pack`. -/
theorem c1_archive_naming :
    makezip "Foo" "2.1" "dist/Foo-darwin-x64" (strIn "win32" "darwin-x64")
      = .ok { zipfile := "Foo-2.1-macos-x64", mode := .dmg,
              cmd := "rm -f dist/Foo-2.1-macos-x64.dmg; node_modules/.bin/appdmg resources/pack-dmg-spec.json dist/Foo-2.1-macos-x64.dmg" }
    ∧ makezip "Foo" "2.1" "dist/Foo-win32-ia32" (strIn "win32" "win32-ia32")
      = .ok { zipfile := "Foo-2.1-win32-ia32", mode := .unwrapped,
              cmd := "cd dist/Foo-win32-ia32; rm -f ../Foo-2.1-win32-ia32.zip; zip -q -r ../Foo-2.1-win32-ia32.zip *" }
    ∧ strIn "win32" "win32-ia32" = true :=
  ⟨rfl, rfl, rfl⟩

/-- C2 (counterexample): the claim says the disk-image path is taken
exactly when the raw platform identifier contains "darwin", independently
of the product name.  With product name "darwin" and bundle directory
`dist/darwin-linux-x64` the platform identifier is "linux-x64", which does
not contain "darwin", yet the disk-image branch is taken. -/
theorem c2_counterexample :
    mzMode (makezip "darwin" "1.0" "dist/darwin-linux-x64" false) = some ZipMode.dmg
    ∧ strIn "darwin" "linux-x64" = false :=
  ⟨rfl, rfl⟩

/-- C2 (amended): the Archiver takes the disk-image path exactly when the
full computed archive name `product_name ++ "-" ++ version ++ "-" ++
platform` contains the substring "darwin"; otherwise it takes the zip path
(unwrapped or wrapped per the flag). -/
theorem c2_branch_on_full_name (pname pver plat dir : String) (uw : Bool)
    (h : pathTail dir = pname ++ "-" ++ plat) :
    mzMode (makezip pname pver dir uw)
      = some (if strIn "darwin" (pname ++ "-" ++ pver ++ "-" ++ plat) = true then ZipMode.dmg
              else if uw = true then ZipMode.unwrapped else ZipMode.wrapped) := by
  unfold makezip
  simp only [h, strStarts_append, strDrop_append]
  by_cases hc : strIn "darwin" (pname ++ "-" ++ pver ++ "-" ++ plat) = true <;>
    by_cases huw : uw = true <;>
      simp [hc, huw, mzMode]

/-- C2 (witness): the amended branch rule applied to the concrete bundle
directory `dist/Foo-darwin-x64`. -/
theorem c2_branch_witness :
    mzMode (makezip "Foo" "2.1" "dist/Foo-darwin-x64" false)
      = some (if strIn "darwin" ("Foo" ++ "-" ++ "2.1" ++ "-" ++ "darwin-x64") = true then ZipMode.dmg
              else if false = true then ZipMode.unwrapped else ZipMode.wrapped) :=
  c2_branch_on_full_name "Foo" "2.1" "darwin-x64" "dist/Foo-darwin-x64" false (by decide)

/-- C4: whenever the bundle directory's base name does not start with
`product_name ++ "-"`, `makezip` raises before producing any archiving
step: the result is the bare error, with no subprocess command and no
archive deletion. -/
theorem c4_path_prefix_error (pname pver dir : String) (uw : Bool)
    (h : strStarts (pathTail dir) (pname ++ "-") = false) :
    makezip pname pver dir uw = .error "path does not have the prefix" := by
  unfold makezip
  simp [h]

/-- C4 (witness): bundle directory "Bar-win32-x64" with product name "Foo"
raises the path-prefix error. -/
theorem c4_path_prefix_error_witness :
    strStarts (pathTail "dist/Bar-win32-x64") ("Foo" ++ "-") = false
    ∧ makezip "Foo" "2.1" "dist/Bar-win32-x64" true
        = .error "path does not have the prefix" :=
  ⟨by decide, c4_path_prefix_error "Foo" "2.1" "dist/Bar-win32-x64" true (by decide)⟩

/-- C5 (counterexample): the claim says the "darwin" → "macos" substitution
leaves the product-name portion unchanged for every product name.  With
product name "darwinFoo" the computed name becomes "macosFoo-1.0-macos-x64":
the product-name portion is rewritten too. -/
theorem c5_counterexample :
    mzName (makezip "darwinFoo" "1.0" "dist/darwinFoo-darwin-x64" false)
      = some "macosFoo-1.0-macos-x64"
    ∧ ("macosFoo-1.0-macos-x64" : String)
        ≠ "darwinFoo" ++ "-" ++ "1.0" ++ "-" ++ "macos-x64" :=
  ⟨rfl, by decide⟩

/-- C5 (amended): `str.replace` rewrites every occurrence of "darwin" in
the whole computed archive name; provided neither the product name nor the
version contains "darwin", this affects only the platform segment and the
product-name and version portions are left unchanged. -/
theorem c5_replace_only_platform (pname pver plat dir : String) (uw : Bool)
    (h : pathTail dir = pname ++ "-" ++ plat)
    (hn : strIn "darwin" pname = false) (hv : strIn "darwin" pver = false) :
    mzName (makezip pname pver dir uw)
      = some (pname ++ "-" ++ pver ++ "-" ++ strReplace plat "darwin" "macos") := by
  have hne : ("darwin" : String).data ≠ [] := by decide
  have hsep : '-' ∉ ("darwin" : String).data := by decide
  unfold strIn at hn hv
  have hflat : (pname ++ "-" ++ pver ++ "-" ++ plat).data
      = pname.data ++ '-' :: (pver.data ++ '-' :: plat.data) := by
    simp [String.data_append]
  unfold makezip
  simp only [h, strStarts_append, strDrop_append, not_true, if_false]
  by_cases hc : strIn "darwin" (pname ++ "-" ++ pver ++ "-" ++ plat) = true
  · rw [if_pos hc]
    simp only [mzName]
    congr 1
    apply String.ext
    show replaceCL ("darwin" : String).data ("macos" : String).data
        (pname ++ "-" ++ pver ++ "-" ++ plat).data = _
    rw [hflat, replaceCL_append_sep _ _ _ _ _ hne hsep hn,
      replaceCL_append_sep _ _ _ _ _ hne hsep hv]
    simp [String.data_append, strReplace]
  · have hplat : strIn "darwin" plat = false := by
      by_contra hx
      rw [Bool.not_eq_false] at hx
      apply hc
      unfold strIn at hx ⊢
      have hsh : (pname ++ "-" ++ pver ++ "-" ++ plat).data
          = (pname.data ++ '-' :: pver.data ++ ['-']) ++ plat.data := by
        simp [String.data_append]
      rw [hsh]
      exact hasSubCL_append_right _ _ _ hx
    rw [if_neg hc, strReplace_id plat "darwin" "macos" hne hplat]
    by_cases huw : uw = true <;> simp [huw, mzName]

/-- C5 (witness): the amended substitution rule applied to product "Foo",
version "2.1", platform "darwin-x64". -/
theorem c5_replace_witness :
    mzName (makezip "Foo" "2.1" "dist/Foo-darwin-x64" false)
      = some ("Foo" ++ "-" ++ "2.1" ++ "-" ++ strReplace "darwin-x64" "darwin" "macos") :=
  c5_replace_only_platform "Foo" "2.1" "darwin-x64" "dist/Foo-darwin-x64" false
    (by decide) (by decide) (by decide)

/-! ## Claims about the Platform Selector and the driver -/

/-- C3: for every filter sequence `args`, the selected package list is a
subsequence of `all_packages` in the original order, has no duplicates
(each platform appears at most once even if several filters match it), and
when `args` is empty it is exactly `all_packages`. -/
theorem c3_selector_shape (args : List String) :
    List.Sublist (selectPackages args) all_packages
    ∧ (selectPackages args).Nodup
    ∧ (args = [] → selectPackages args = all_packages) := by
  have hsub : List.Sublist (selectPackages args) all_packages := by
    unfold selectPackages
    split
    · exact List.Sublist.refl _
    · exact List.filter_sublist _
  refine ⟨hsub, List.Nodup.sublist hsub (by decide), ?_⟩
  intro h
  simp [selectPackages, h]

/-- C3 (witness): the shape properties at the concrete filter list
`["linux"]` and at the empty filter list. -/
theorem c3_selector_shape_witness :
    List.Sublist (selectPackages ["linux"]) all_packages
    ∧ (selectPackages ["linux"]).Nodup
    ∧ selectPackages [] = all_packages :=
  ⟨(c3_selector_shape ["linux"]).1, (c3_selector_shape ["linux"]).2.1,
   (c3_selector_shape []).2.2 rfl⟩

/-- C6 (counterexample): the claim says that whenever `--none` is set,
neither phase executes regardless of the other flags.  But with both
`--build` and `--none` set, the build phase still executes: `doall` is
false, yet the build loop runs because `opts.makedist` is true. -/
theorem c6_counterexample :
    Act.build "dist/Foo-darwin-x64" "darwin-x64"
      ∈ dispatch { makedist := true, makezip := false, makenothing := true }
          "Foo" all_packages := by
  decide

/-- C6 (amended): when `--none` is the only mode flag set, neither the
build nor the archive phase executes; when no mode flags at all are set,
both phases execute over every selected platform, the archive phase with
`unwrapped = ('win32' in pack)`. -/
theorem c6_none_alone_and_default (pname : String) (packages : List String) :
    dispatch { makedist := false, makezip := false, makenothing := true } pname packages = []
    ∧ dispatch { makedist := false, makezip := false, makenothing := false } pname packages
      = packages.map (fun pack => Act.build ("dist/" ++ pname ++ "-" ++ pack) pack)
        ++ packages.map (fun pack =>
            Act.archive ("dist/" ++ pname ++ "-" ++ pack) pack (strIn "win32" pack)) := by
  constructor <;> simp [dispatch, doall]

/-- C7 (counterexample): the claim says a missing `version` file in the
bundler's output directory is not an error.  But `os.unlink` raises when
the file is absent, so `builddir` fails on a directory with no `version`
file. -/
theorem c7_counterexample :
    builddir "dist/Foo-linux-x64" "linux-x64" false
      = .error ("FileNotFoundError: " ++ pathJoin "dist/Foo-linux-x64" "version") :=
  rfl

/-- C7 (amended): after the bundler invocation and the root-file copies,
`builddir` unconditionally unlinks `<dir>/version`: when the file is
present it is deleted, and when it is absent the unlink raises and the
step fails. -/
theorem c7_unlink_unconditional (dir pack : String) :
    builddir dir pack true
      = .ok ([BDAct.runCmd ("npm run package-" ++ pack)]
          ++ rootfiles.map (fun f => BDAct.copyRoot f (pathJoin dir f))
          ++ [BDAct.unlinkFile (pathJoin dir "version")])
    ∧ builddir dir pack false
      = .error ("FileNotFoundError: " ++ pathJoin dir "version") :=
  ⟨rfl, rfl⟩

/-- C8 (counterexample): the claim says an empty-string `productName` or
`version` is a fatal manifest error.  But the manifest read only indexes
the two keys: empty strings are accepted and the run proceeds past
manifest reading (its error slot is `none`). -/
theorem c8_counterexample :
    readMeta [("version", ""), ("productName", "")] = .ok ("", "")
    ∧ (mainRun [("version", ""), ("productName", "")]
        { makedist := false, makezip := false, makenothing := false } []).2 = none :=
  ⟨rfl, rfl⟩

/-- C8 (amended): manifest reading aborts exactly when one of the keys
`version`, `productName` is missing; present values are accepted without
any emptiness check (so empty strings pass). -/
theorem c8_presence_only (pkg : List (String × String)) :
    (∀ v n, pkg.lookup "version" = some v → pkg.lookup "productName" = some n →
        readMeta pkg = .ok (n, v))
    ∧ (pkg.lookup "version" = none → readMeta pkg = .error ("KeyError: " ++ "version"))
    ∧ (pkg.lookup "productName" = none → pkg.lookup "version" ≠ none →
        readMeta pkg = .error ("KeyError: " ++ "productName")) := by
  refine ⟨?_, ?_, ?_⟩
  · intro v n hv hn
    simp only [readMeta, dictGet, hv, hn]
    rfl
  · intro hv
    simp only [readMeta, dictGet, hv]
    rfl
  · intro hn hv
    cases hcase : pkg.lookup "version" with
    | none => exact absurd hcase hv
    | some v =>
      simp only [readMeta, dictGet, hcase, hn]
      rfl

/-- C8 (witness): the amended rule applied to a manifest whose two values
are both the empty string: the read succeeds. -/
theorem c8_presence_only_witness :
    readMeta [("version", ""), ("productName", "")] = .ok ("", "") :=
  (c8_presence_only [("version", ""), ("productName", "")]).1 "" "" rfl rfl

/-- C9 (counterexample): the claim quantifies over every filter sequence
whose strings match no platform; the empty sequence vacuously matches
none, yet the run does not fail — it selects all platforms and proceeds to
staging (error slot `none`). -/
theorem c9_counterexample :
    ([] : List String).all
        (fun arg => all_packages.all (fun pack => ! strIn arg pack)) = true
    ∧ (mainRun [("version", "1.0"), ("productName", "Foo")]
        { makedist := false, makezip := false, makenothing := false } []).2 = none :=
  ⟨rfl, rfl⟩

/-- C9 (amended): for every NON-EMPTY filter sequence none of whose
strings occurs in any of the five platform identifiers, the run fails with
the no-packages-selected error and performs no action at all — in
particular neither the staging directory creation nor any staging copy has
happened. -/
theorem c9_no_match_aborts_before_staging (pkg : List (String × String))
    (nv : String × String) (opts : Opts) (args : List String) (hne : args ≠ [])
    (hmatch : ∀ arg ∈ args, ∀ pack ∈ all_packages, strIn arg pack = false)
    (hmeta : readMeta pkg = .ok nv) :
    mainRun pkg opts args = ([], some "no packages selected") := by
  have hsel : selectPackages args = [] := by
    unfold selectPackages
    rw [if_neg hne]
    apply List.filter_eq_nil_iff.mpr
    intro pack hp
    intro hany
    rcases List.any_eq_true.mp hany with ⟨x, hx, hstr⟩
    rw [hmatch x hx pack hp] at hstr
    exact Bool.false_ne_true hstr
  obtain ⟨n, v⟩ := nv
  unfold mainRun
  rw [hmeta]
  simp [hsel]

/-- C9 (witness): filter `["zzz"]` matches no platform and aborts the run
with no action performed. -/
theorem c9_no_match_witness :
    mainRun [("version", "1.0"), ("productName", "Foo")]
      { makedist := false, makezip := false, makenothing := false } ["zzz"]
      = ([], some "no packages selected") :=
  c9_no_match_aborts_before_staging _ ("Foo", "1.0") _ ["zzz"]
    (by decide) (by decide) rfl

/-! ## Claim about the File Stager (`install`): idempotence

The proof characterises `install` as a fixed sequence of directory
creations and constant-valued overwrites determined by the source tree
alone, then shows such a sequence is idempotent pointwise. -/

theorem FS.ext2 {a b : FS} (h1 : a.fileContent = b.fileContent)
    (h2 : a.dirs = b.dirs) : a = b := by
  cases a; cases b; cases h1; cases h2; rfl

theorem applyWrites_cons (w : String × String) (ws : List (String × String))
    (p : String) (v : Option String) :
    applyWrites (w :: ws) p v = applyWrites ws p (if p = w.1 then some w.2 else v) := rfl

theorem applyDirs_cons (d : String) (ds : List String) (p : String) (b : Bool) :
    applyDirs (d :: ds) p b = applyDirs ds p ((p = d : Bool) || b) := rfl

theorem applyWrites_append (ws1 ws2 : List (String × String)) (p : String) (v : Option String) :
    applyWrites (ws1 ++ ws2) p v = applyWrites ws2 p (applyWrites ws1 p v) := by
  simp [applyWrites, List.foldl_append]

theorem applyDirs_append (ds1 ds2 : List String) (p : String) (b : Bool) :
    applyDirs (ds1 ++ ds2) p b = applyDirs ds2 p (applyDirs ds1 p b) := by
  simp [applyDirs, List.foldl_append]

theorem applyWrites_idem (ws : List (String × String)) (p : String) (v : Option String) :
    applyWrites ws p (applyWrites ws p v) = applyWrites ws p v := by
  induction ws generalizing v with
  | nil => rfl
  | cons w ws ih =>
    rw [applyWrites_cons, applyWrites_cons]
    by_cases hp : p = w.1
    · simp only [if_pos hp]
    · simp only [if_neg hp]
      exact ih _

theorem applyDirs_idem (ds : List String) (p : String) (b : Bool) :
    applyDirs ds p (applyDirs ds p b) = applyDirs ds p b := by
  induction ds generalizing b with
  | nil => rfl
  | cons d ds ih =>
    rw [applyDirs_cons, applyDirs_cons]
    by_cases hp : p = d
    · simp only [decide_eq_true hp, Bool.true_or]
    · simp only [decide_eq_false hp, Bool.false_or]
      exact ih _

theorem applyDirs_true (ds : List String) (p : String) :
    applyDirs ds p true = true := by
  induction ds with
  | nil => rfl
  | cons d ds ih =>
    rw [applyDirs_cons, Bool.or_true]
    exact ih

theorem foldl_fsWrite_fileContent {α : Type} (keyf valf : α → String)
    (l : List α) (fs : FS) (p : String) :
    ((l.foldl (fun acc x => fsWrite (keyf x) (valf x) acc) fs).fileContent p)
      = applyWrites (l.map (fun x => (keyf x, valf x))) p (fs.fileContent p) := by
  induction l generalizing fs with
  | nil => rfl
  | cons x xs ih =>
    show ((xs.foldl _ (fsWrite (keyf x) (valf x) fs)).fileContent p) = _
    rw [ih]
    rfl

theorem foldl_fsWrite_dirs {α : Type} (keyf valf : α → String)
    (l : List α) (fs : FS) (p : String) :
    ((l.foldl (fun acc x => fsWrite (keyf x) (valf x) acc) fs).dirs p) = fs.dirs p := by
  induction l generalizing fs with
  | nil => rfl
  | cons x xs ih =>
    show ((xs.foldl _ (fsWrite (keyf x) (valf x) fs)).dirs p) = _
    rw [ih]
    rfl

theorem installEntry_fileContent (src : SrcTree) (appdir f : String) (fs : FS) (p : String) :
    (installEntry src appdir f fs).fileContent p
      = applyWrites (entryWrites src appdir f) p (fs.fileContent p) := by
  by_cases hd : src.isDir f = true
  · simp only [installEntry, entryWrites, hd, not_true, if_false]
    rw [foldl_fsWrite_fileContent (fun sub => pathJoin (pathJoin appdir f) sub)
      (fun sub => src.content (pathJoin f sub))]
    rfl
  · simp only [installEntry, entryWrites, hd]
    rfl

theorem installEntry_dirs (src : SrcTree) (appdir f : String) (fs : FS) (p : String) :
    (installEntry src appdir f fs).dirs p
      = applyDirs (entryDirs src appdir f) p (fs.dirs p) := by
  by_cases hd : src.isDir f = true
  · simp only [installEntry, entryDirs, hd, not_true, if_false]
    rw [foldl_fsWrite_dirs (fun sub => pathJoin (pathJoin appdir f) sub)
      (fun sub => src.content (pathJoin f sub))]
    rfl
  · simp only [installEntry, entryDirs, hd]
    rfl

theorem manifestWrites_cons (src : SrcTree) (appdir f : String) (rest : List String) :
    manifestWrites src appdir (f :: rest)
      = entryWrites src appdir f ++ manifestWrites src appdir rest := by
  simp [manifestWrites]

theorem manifestDirs_cons (src : SrcTree) (appdir f : String) (rest : List String) :
    manifestDirs src appdir (f :: rest)
      = entryDirs src appdir f ++ manifestDirs src appdir rest := by
  simp [manifestDirs]

theorem installFiles_fileContent (src : SrcTree) (appdir : String)
    (l : List String) (fs : FS) (p : String) :
    (installFiles src appdir l fs).fileContent p
      = applyWrites (manifestWrites src appdir l) p (fs.fileContent p) := by
  induction l generalizing fs with
  | nil => rfl
  | cons f rest ih =>
    show (installFiles src appdir rest (installEntry src appdir f fs)).fileContent p = _
    rw [ih, installEntry_fileContent, manifestWrites_cons, applyWrites_append]

theorem installFiles_dirs (src : SrcTree) (appdir : String)
    (l : List String) (fs : FS) (p : String) :
    (installFiles src appdir l fs).dirs p
      = applyDirs (manifestDirs src appdir l) p (fs.dirs p) := by
  induction l generalizing fs with
  | nil => rfl
  | cons f rest ih =>
    show (installFiles src appdir rest (installEntry src appdir f fs)).dirs p = _
    rw [ih, installEntry_dirs, manifestDirs_cons, applyDirs_append]

/-- `install` succeeds exactly on an existing destination root, and its
result is the pointwise application of a write/mkdir sequence that depends
only on the source tree and the root. -/
theorem install_eq (src : SrcTree) (rd : String) (fs : FS) (h : fs.dirs rd = true) :
    install src rd fs = .ok
      { fileContent := fun p => applyWrites (manifestWrites src rd files) p (fs.fileContent p)
        dirs := fun p => applyDirs (installDirs src rd) p (fs.dirs p) } := by
  unfold install
  rw [if_neg (by simp [h])]
  show Except.ok (installFiles src rd files
      (fsMkdir (pathJoin (pathJoin rd "quixe") "media")
        (fsMkdir (pathJoin (pathJoin rd "quixe") "lib")
          (fsMkdir (pathJoin rd "quixe") (fsMkdir rd fs))))) = _
  congr 1
  apply FS.ext2
  · funext p
    rw [installFiles_fileContent]
    rfl
  · funext p
    rw [installFiles_dirs]
    show applyDirs (manifestDirs src rd files) p _
        = applyDirs (installDirs src rd) p (fs.dirs p)
    unfold installDirs
    rw [applyDirs_append]
    rfl

/-- C10: the File Stager is idempotent.  If `install` against destination
root `rd` turned the destination file system `fs` into `fs'`, then running
`install` again (same source tree, same root) on `fs'` succeeds and leaves
`fs'` exactly as it is: every directory it would create is already there
and every file it would copy already holds the staged bytes. -/
theorem c10_install_idempotent (src : SrcTree) (rd : String) (fs fs' : FS)
    (h : install src rd fs = .ok fs') :
    install src rd fs' = .ok fs' := by
  have hd : fs.dirs rd = true := by
    by_contra hx
    unfold install at h
    rw [if_pos hx] at h
    exact Except.noConfusion h
  rw [install_eq src rd fs hd] at h
  have hfs' := (Except.ok.inj h).symm
  have hd' : fs'.dirs rd = true := by
    rw [hfs']
    show applyDirs (installDirs src rd) rd (fs.dirs rd) = true
    rw [hd]
    exact applyDirs_true _ _
  rw [install_eq src rd fs' hd', hfs']
  congr 1
  apply FS.ext2
  · funext p
    show applyWrites (manifestWrites src rd files) p
        (applyWrites (manifestWrites src rd files) p (fs.fileContent p)) = _
    rw [applyWrites_idem]
  · funext p
    show applyDirs (installDirs src rd) p
        (applyDirs (installDirs src rd) p (fs.dirs p)) = _
    rw [applyDirs_idem]

/-- C10 (witness): idempotence at the concrete sample tree: the state an
actual first run produced (by computation) is a fixed point of `install`. -/
theorem c10_install_witness :
    install srcSample "tempapp"
        (installFiles srcSample "tempapp" files
          (fsMkdir (pathJoin (pathJoin "tempapp" "quixe") "media")
            (fsMkdir (pathJoin (pathJoin "tempapp" "quixe") "lib")
              (fsMkdir (pathJoin "tempapp" "quixe") (fsMkdir "tempapp" fsSample)))))
      = .ok (installFiles srcSample "tempapp" files
          (fsMkdir (pathJoin (pathJoin "tempapp" "quixe") "media")
            (fsMkdir (pathJoin (pathJoin "tempapp" "quixe") "lib")
              (fsMkdir (pathJoin "tempapp" "quixe") (fsMkdir "tempapp" fsSample))))) :=
  c10_install_idempotent srcSample "tempapp" fsSample _ rfl

/-- C6 (witness): the amended dispatch rule evaluated at product "Foo"
over the full platform list. -/
theorem c6_none_alone_witness :
    dispatch { makedist := false, makezip := false, makenothing := true } "Foo" all_packages = []
    ∧ dispatch { makedist := false, makezip := false, makenothing := false } "Foo" all_packages
      = all_packages.map (fun pack => Act.build ("dist/" ++ "Foo" ++ "-" ++ pack) pack)
        ++ all_packages.map (fun pack =>
            Act.archive ("dist/" ++ "Foo" ++ "-" ++ pack) pack (strIn "win32" pack)) :=
  c6_none_alone_and_default "Foo" all_packages

/-- C7 (witness): `builddir` at a concrete bundle directory, in both
file-system states. -/
theorem c7_unlink_witness :
    builddir "dist/Foo-win32-x64" "win32-x64" true
      = .ok ([BDAct.runCmd ("npm run package-" ++ "win32-x64")]
          ++ rootfiles.map (fun f => BDAct.copyRoot f (pathJoin "dist/Foo-win32-x64" f))
          ++ [BDAct.unlinkFile (pathJoin "dist/Foo-win32-x64" "version")])
    ∧ builddir "dist/Foo-win32-x64" "win32-x64" false
      = .error ("FileNotFoundError: " ++ pathJoin "dist/Foo-win32-x64" "version") :=
  c7_unlink_unconditional "dist/Foo-win32-x64" "win32-x64"

end Makedist
